import Mathlib

/-
  Verification development for the gensio stack runtime.

  Shallow embedding of:
  - the file-descriptor lower layer (src/lib/gensio_ll_fd.c),
  - the ioinfo out-of-band send queue (io_event / ioinfo_sendoob),
  - the avahi poll bridge's timer update path (gensio_avahi_timeout_update),
  - a lock/refcount discipline trace model for the FD lower layer's
    up-call dispatch paths.

  Machine integers (gensiods, unsigned int) are modelled as Nat; buffers as
  List Nat; C booleans as Bool.  Functions that emit side effects (arming OS
  handlers, invoking the upward callback, scheduling the deferred runner)
  return an action list alongside the new state.  The upward consumer
  callback is a parameter: given the invocation index, the offered bytes and
  the error, it returns the consumed count and the value of read_enabled at
  the moment it returns (the upper layer may re-enter
  fd_set_read_callback_enable during the callback; with in_read true that
  call only stores the flag, which is exactly what the parameter captures).
-/

namespace GensioModel

/-- Modelled from the spec: gensio_err.h is not under src/.  Only the
distinction between 0 (success) and the named nonzero codes is used by the
claims; the concrete numerals are immaterial, chosen distinct. -/
def GE_NOMEM : Nat := 1

/-- Modelled from the spec: see GE_NOMEM. -/
def GE_NOTSUP : Nat := 2

/-- Modelled from the spec: see GE_NOMEM. -/
def GE_INPROGRESS : Nat := 3

/-- Modelled from the spec: see GE_NOMEM. -/
def GE_NOTREADY : Nat := 4

/-- Modelled from the spec: see GE_NOMEM. -/
def GE_TIMEDOUT : Nat := 5

/-- The fd_state enum of gensio_ll_fd.c. -/
inductive FdState where
  | Closed
  | InOpen
  | Open
  | InClose
deriving DecidableEq, Repr

/-- Which optional driver hooks of struct gensio_fd_ll_ops are non-NULL. -/
structure FdOps where
  read_ready : Bool
  write_ready : Bool
  except_ready : Bool
  check_close : Bool
  retry_open : Bool
  sub_open : Bool
deriving DecidableEq, Repr

/-- Observable effects of the FD lower layer: OS handler toggles, the OS
read, scheduling the deferred runner, the close timer, and the up-calls. -/
inductive Act where
  | setReadHandler (b : Bool)
  | setExceptHandler (b : Bool)
  | setWriteHandler (b : Bool)
  | clearFdHandlers
  | clearFdHandlersNorpt
  | closeFd
  | doRead
  | runDeferred
  | startCloseTimer
  | cbRead (err : Nat) (off : List Nat)
  | cbWriteReady
  | callOpenDone (err : Nat)
  | callCloseDone
  | checkCloseStart
  | opsReadReady
  | opsWriteReady
  | opsExceptReady
  | freeObj
deriving DecidableEq, Repr

/-- The struct fd_ll of gensio_ll_fd.c, restricted to the fields the claims
are about.  read_data holds the buffer contents (length read_data_size);
auxdata records whether the auxdata pointer is non-NULL; fd_present records
fd != -1; open_done / close_done record whether those callbacks are set. -/
structure FdLL where
  state : FdState
  refcount : Nat
  fd_present : Bool
  read_enabled : Bool
  write_enabled : Bool
  write_only : Bool
  read_data : List Nat
  read_data_size : Nat
  read_data_len : Nat
  read_data_pos : Nat
  auxdata : Bool
  in_read : Bool
  deferred_op_pending : Bool
  deferred_read : Bool
  deferred_close : Bool
  open_done : Bool
  open_err : Nat
  close_done : Bool
  ops : FdOps
deriving DecidableEq, Repr

/-- The byte window handed to the upward callback: read_data + read_data_pos,
for read_data_len bytes. -/
def offered (f : FdLL) : List Nat :=
  (f.read_data.drop f.read_data_pos).take f.read_data_len

/-- The consumer callback: invocation index, offered bytes, error code give
the consumed count and the value of read_enabled on return. -/
def Cb : Type := Nat → List Nat → Nat → Nat × Bool

/-- The retry loop of fd_deliver_read_data.  Fuel bounds the loop (the C
code can spin forever when the consumer keeps taking zero with read
enabled); none in the first component means the fuel ran out with the loop
still running, and the action list is the prefix of the (possibly
infinite) real trace. -/
def deliverLoop (cb : Cb) (err : Nat) : Nat → Nat → FdLL → Option FdLL × List Act
  | 0, _, _ => (none, [])
  | Nat.succ fuel, k, f =>
    let off := offered f
    let r := cb k off err
    let f1 := { f with read_enabled := r.2 }
    let a := Act.cbRead err off
    if err ≠ 0 ∨ r.1 ≥ f1.read_data_len then
      (some { f1 with read_data_pos := 0, read_data_len := 0, auxdata := false }, [a])
    else
      let f2 := { f1 with read_data_pos := f1.read_data_pos + r.1,
                          read_data_len := f1.read_data_len - r.1 }
      if f2.read_enabled then
        let rest := deliverLoop cb err fuel (k + 1) f2
        (rest.1, a :: rest.2)
      else
        (some f2, [a])

/-- fd_deliver_read_data: deliver only when there is an error or buffered
data. -/
def fd_deliver_read_data (cb : Cb) (fuel k err : Nat) (f : FdLL) :
    Option FdLL × List Act :=
  if err ≠ 0 ∨ f.read_data_len ≠ 0 then deliverLoop cb err fuel k f
  else (some f, [])

/-- fd_sched_deferred_op: take a reference and start the runner unless a
deferred op is already pending. -/
def fd_sched_deferred_op (f : FdLL) : FdLL × List Act :=
  if f.deferred_op_pending then (f, [])
  else ({ f with refcount := f.refcount + 1, deferred_op_pending := true },
        [Act.runDeferred])

/-- fd_set_read_callback_enable. -/
def fd_set_read_callback_enable (enabled : Bool) (f : FdLL) : FdLL × List Act :=
  if f.write_only then (f, [])
  else
    let f := { f with read_enabled := enabled }
    if f.in_read ∨ f.state ≠ FdState.Open ∨ (f.read_data_len ≠ 0 ∧ enabled = false) then
      (f, [])
    else if f.read_data_len ≠ 0 then
      fd_sched_deferred_op { f with in_read := true, deferred_read := true }
    else
      (f, [Act.setReadHandler enabled, Act.setExceptHandler enabled])

/-- fd_set_write_callback_enable. -/
def fd_set_write_callback_enable (enabled : Bool) (f : FdLL) : FdLL × List Act :=
  let f := { f with write_enabled := enabled }
  if f.state = FdState.Open ∨ f.state = FdState.InOpen then
    (f, [Act.setWriteHandler enabled])
  else (f, [])

/-- fd_start_close: optional check_close START call, state to IN_CLOSE,
clear the FD handlers. -/
def fd_start_close (f : FdLL) : FdLL × List Act :=
  ({ f with state := FdState.InClose },
   (if f.ops.check_close then [Act.checkCloseStart] else []) ++ [Act.clearFdHandlers])

/-- fd_close: accepted only in OPEN or IN_OPEN; otherwise GE_NOTREADY with
no state change.  The third component is the return code. -/
def fd_close (f : FdLL) : FdLL × List Act × Nat :=
  if f.state = FdState.Open ∨ f.state = FdState.InOpen then
    let p := fd_start_close { f with close_done := true }
    (p.1, p.2, 0)
  else (f, [], GE_NOTREADY)

/-- fd_finish_close: state to CLOSED and invoke close_done if set. -/
def fd_finish_close (f : FdLL) : FdLL × List Act :=
  let f := { f with state := FdState.Closed }
  if f.close_done then ({ f with close_done := false }, [Act.callCloseDone])
  else (f, [])

/-- fd_finish_cleared: ref, close the handle, report a failed open if
open_done is still set, then either hand the close-done off to a pending
deferred op (deferred_close) or finish the close directly, and deref. -/
def fd_finish_cleared (f : FdLL) : FdLL × List Act :=
  let f := { f with refcount := f.refcount + 1, fd_present := false }
  let p :=
    if f.open_done then
      ({ f with open_done := false, state := FdState.Closed },
       [Act.callOpenDone f.open_err])
    else (f, [])
  let q :=
    if p.1.deferred_op_pending then ({ p.1 with deferred_close := true }, [])
    else fd_finish_close p.1
  ({ q.1 with refcount := q.1.refcount - 1 }, Act.closeFd :: (p.2 ++ q.2))

/-- fd_close_timeout, with the driver's check_close(DONE) outcome as a
parameter (true = GE_INPROGRESS). -/
def fd_close_timeout (inProgress : Bool) (f : FdLL) : FdLL × List Act :=
  if f.ops.check_close ∧ inProgress then (f, [Act.startCloseTimer])
  else fd_finish_cleared f

/-- fd_cleared: the OS cleared up-call after clear_fd_handlers. -/
def fd_cleared (inProgress : Bool) (f : FdLL) : FdLL × List Act :=
  if f.ops.check_close then fd_close_timeout inProgress f
  else fd_finish_cleared f

/-- fd_disable: straight to CLOSED, clear handlers with no report, close
the handle. -/
def fd_disable (f : FdLL) : FdLL × List Act :=
  ({ f with state := FdState.Closed, fd_present := false },
   [Act.clearFdHandlersNorpt, Act.closeFd])

/-- fd_finish_open: drop the except handler; on error either start a close
(handle still present, done deferred to finish_cleared) or go CLOSED; on
success go OPEN; then report open_done and re-arm per the enables. -/
def fd_finish_open (err : Nat) (f : FdLL) : FdLL × List Act :=
  let a0 := if f.fd_present then [Act.setExceptHandler false] else []
  if err ≠ 0 ∧ f.fd_present then
    let p := fd_start_close { f with open_err := err }
    (p.1, a0 ++ p.2)
  else
    let f1 := if err ≠ 0 then { f with state := FdState.Closed }
              else { f with state := FdState.Open }
    let p := if f1.open_done then ({ f1 with open_done := false }, [Act.callOpenDone err])
             else (f1, [])
    let f2 := p.1
    let arm :=
      if f2.state = FdState.Open then
        (if f2.read_enabled then [Act.setReadHandler true, Act.setExceptHandler true]
         else []) ++
        (if f2.write_enabled then [Act.setWriteHandler true] else [])
      else []
    (f2, a0 ++ p.2 ++ arm)

/-- fd_handle_write_ready, with the driver outcomes as parameters:
checkOpenErr for ops->check_open, retryErr for ops->retry_open, setupOk for
fd_setup_handlers.  In the OPEN branch the upward WRITE_READY callback is
recorded as an action; state changes the upper layer makes during it happen
through their own entry points. -/
def fd_handle_write_ready (checkOpenErr retryErr : Nat) (setupOk : Bool)
    (f : FdLL) : FdLL × List Act :=
  let a0 := [Act.setWriteHandler false]
  if f.state = FdState.InOpen then
    if checkOpenErr ≠ 0 ∧ f.ops.retry_open then
      let a1 := [Act.clearFdHandlersNorpt, Act.closeFd]
      let f1 := { f with fd_present := retryErr = 0 ∨ retryErr = GE_INPROGRESS }
      if retryErr ≠ GE_INPROGRESS then
        let p := fd_finish_open retryErr f1
        (p.1, a0 ++ a1 ++ p.2)
      else if setupOk then
        (f1, a0 ++ a1 ++ [Act.setWriteHandler true, Act.setExceptHandler true])
      else
        let p := fd_finish_open GE_NOMEM f1
        (p.1, a0 ++ a1 ++ p.2)
    else
      let p := fd_finish_open checkOpenErr f
      (p.1, a0 ++ p.2)
  else if f.ops.write_ready then
    (f, a0 ++ [Act.opsWriteReady])
  else
    (f, a0 ++ [Act.cbWriteReady] ++
        (if f.state = FdState.Open ∧ f.write_enabled then [Act.setWriteHandler true]
         else []))

/-- fd_deref_and_unlock's count bookkeeping: decrement, and free when the
count reaches zero. -/
def fd_deref (f : FdLL) : FdLL × List Act :=
  ({ f with refcount := f.refcount - 1 },
   if f.refcount = 1 then [Act.freeObj] else [])

/-- fd_write_ready: lock-and-ref, handle, deref-and-unlock. -/
def fd_write_ready (checkOpenErr retryErr : Nat) (setupOk : Bool) (f : FdLL) :
    FdLL × List Act :=
  let p := fd_handle_write_ready checkOpenErr retryErr setupOk
             { f with refcount := f.refcount + 1 }
  let q := fd_deref p.1
  (q.1, p.2 ++ q.2)

/-- fd_except_ready: in IN_OPEN treated as write ready; otherwise the
driver hook if present, else nothing. -/
def fd_except_ready (checkOpenErr retryErr : Nat) (setupOk : Bool) (f : FdLL) :
    FdLL × List Act :=
  if f.state = FdState.InOpen then
    let p := fd_handle_write_ready checkOpenErr retryErr setupOk
               { f with refcount := f.refcount + 1 }
    let q := fd_deref p.1
    (q.1, p.2 ++ q.2)
  else if f.ops.except_ready then (f, [Act.opsExceptReady])
  else (f, [])

/-- fd_open, with the driver's sub_open outcome and fd_setup_handlers
outcome as parameters.  The third component is the return code. -/
def fd_open (subOpenErr : Nat) (setupOk : Bool) (f : FdLL) :
    FdLL × List Act × Nat :=
  if f.ops.sub_open = false then (f, [], GE_NOTSUP)
  else if subOpenErr = GE_INPROGRESS ∨ subOpenErr = 0 then
    let f1 := { f with fd_present := true }
    if setupOk = false then
      ({ f1 with fd_present := false }, [Act.closeFd], GE_NOMEM)
    else if subOpenErr = GE_INPROGRESS then
      ({ f1 with state := FdState.InOpen, open_done := true },
       [Act.setWriteHandler true, Act.setExceptHandler true], GE_INPROGRESS)
    else
      ({ f1 with state := FdState.Open }, [], 0)
  else (f, [], subOpenErr)

/-- fd_handle_incoming, with the OS read outcome as parameters (rerr and
the bytes read, written at the start of the buffer; auxp is whether the
auxdata argument is non-NULL). -/
def fd_handle_incoming (cb : Cb) (fuel k : Nat) (rerr : Nat) (bytes : List Nat)
    (auxp : Bool) (f : FdLL) : Option FdLL × List Act :=
  let f := { f with refcount := f.refcount + 1 }
  let a0 := [Act.setReadHandler false, Act.setExceptHandler false]
  if f.in_read then
    let q := fd_deref f
    (some q.1, a0 ++ q.2)
  else
    let f := { f with in_read := true }
    let rd :=
      if f.read_data_len = 0 then
        if rerr = 0 then
          (({ f with read_data := bytes ++ f.read_data.drop bytes.length,
                     read_data_len := bytes.length, auxdata := auxp } : FdLL),
           [Act.doRead], 0)
        else ((f : FdLL), [Act.doRead], rerr)
      else (f, ([] : List Act), 0)
    match fd_deliver_read_data cb fuel k rd.2.2 rd.1 with
    | (none, acts) => (none, a0 ++ rd.2.1 ++ acts)
    | (some f3, acts) =>
      let f4 := { f3 with in_read := false }
      let rearm := if f4.state = FdState.Open ∧ f4.read_enabled
                   then [Act.setReadHandler true, Act.setExceptHandler true]
                   else []
      let q := fd_deref f4
      (some q.1, a0 ++ rd.2.1 ++ acts ++ rearm ++ q.2)

/-- fd_read_ready: the driver hook if present, else the plain OS read and
delivery. -/
def fd_read_ready (cb : Cb) (fuel k : Nat) (rerr : Nat) (bytes : List Nat)
    (f : FdLL) : Option FdLL × List Act :=
  if f.ops.read_ready then (some f, [Act.opsReadReady])
  else fd_handle_incoming cb fuel k rerr bytes false f

/-- The deferred_read retry loop of fd_deferred_op: while deferred_read is
set, clear it, deliver, then drop in_read. -/
def deferredReadLoop (cb : Cb) : Nat → Nat → Nat → FdLL → Option FdLL × List Act
  | 0, _, _, _ => (none, [])
  | Nat.succ fuelO, fuelI, k, f =>
    if f.deferred_read then
      let f1 := { f with deferred_read := false }
      match fd_deliver_read_data cb fuelI k 0 f1 with
      | (none, acts) => (none, acts)
      | (some f2, acts) =>
        let rest := deferredReadLoop cb fuelO fuelI (k + acts.length)
                      { f2 with in_read := false }
        (rest.1, acts ++ rest.2)
    else (some f, [])

/-- fd_deferred_op: a pending deferred close first, then the deferred-read
loop, then reconcile the OS handler bits with the enables and deref. -/
def fd_deferred_op (cb : Cb) (fuelO fuelI k : Nat) (f : FdLL) :
    Option FdLL × List Act :=
  let p :=
    if f.deferred_close then fd_finish_close { f with deferred_close := false }
    else (f, [])
  match deferredReadLoop cb fuelO fuelI k p.1 with
  | (none, acts) => (none, p.2 ++ acts)
  | (some f2, acts) =>
    let f3 := { f2 with deferred_op_pending := false }
    let harm :=
      if f3.state = FdState.Open then
        [Act.setReadHandler f3.read_enabled, Act.setExceptHandler f3.read_enabled,
         Act.setWriteHandler f3.write_enabled]
      else []
    let q := fd_deref f3
    (some q.1, p.2 ++ acts ++ harm ++ q.2)

/-- fd_free: release the caller's reference. -/
def fd_free (f : FdLL) : FdLL × List Act :=
  fd_deref f

/-- fd_gensio_ll_alloc: fresh state (zalloc), refcount 1, state OPEN when a
handle is supplied, buffer of max_read_size zero bytes. -/
def fd_gensio_ll_alloc (fd_present : Bool) (max_read_size : Nat)
    (write_only : Bool) (ops : FdOps) : FdLL :=
  { state := if fd_present then FdState.Open else FdState.Closed
    refcount := 1
    fd_present := fd_present
    read_enabled := false
    write_enabled := false
    write_only := write_only
    read_data := List.replicate max_read_size 0
    read_data_size := max_read_size
    read_data_len := 0
    read_data_pos := 0
    auxdata := false
    in_read := false
    deferred_op_pending := false
    deferred_read := false
    deferred_close := false
    open_done := false
    open_err := 0
    close_done := false
    ops := ops }

/-- A struct ioinfo_oob record: remaining bytes and whether a send_done
callback is attached. -/
structure IoinfoOob where
  buf : List Nat
  send_done : Bool
deriving DecidableEq, Repr

/-- The ioinfo OOB queue (oob_head .. oob_tail), head first. -/
structure Ioinfo where
  oobq : List IoinfoOob
deriving DecidableEq, Repr

/-- Observable effects of the ioinfo write-ready path. -/
inductive IoAct where
  | gensioWrite (bytes : List Nat) (aux : List String)
  | sendDone
  | setReadEnableOther (b : Bool)
  | setWriteEnableSelf (b : Bool)
deriving DecidableEq, Repr

/-- The aux tag list the OOB write uses. -/
def oobaux : List String := ["oob"]

/-- ioinfo_sendoob: enqueue at the tail and enable write. -/
def ioinfo_sendoob (r : IoinfoOob) (s : Ioinfo) : Ioinfo × List IoAct :=
  ({ oobq := s.oobq ++ [r] }, [IoAct.setWriteEnableSelf true])

/-- The GENSIO_EVENT_WRITE_READY arm of io_event.  count is the byte count
gensio_write reports.  With a queued record: write its remaining bytes with
aux "oob"; fully emitted means send_done (if any) then dequeue; a short
write advances the head in place and returns.  With an empty queue: enable
the other side's read and drop our write enable. -/
def io_event_write_ready (count : Nat) (s : Ioinfo) : Ioinfo × List IoAct :=
  match s.oobq with
  | oob :: rest =>
    let w := IoAct.gensioWrite oob.buf oobaux
    if count ≥ oob.buf.length then
      ({ oobq := rest }, w :: (if oob.send_done then [IoAct.sendDone] else []))
    else
      ({ oobq := { buf := oob.buf.drop count, send_done := oob.send_done } :: rest },
       [w])
  | [] => (s, [IoAct.setReadEnableOther true, IoAct.setWriteEnableSelf false])

/-- The avahi bridge's AvahiTimeout state bits. -/
structure AvahiTimeout where
  stopped : Bool
  in_update : Bool
  freed : Bool
deriving DecidableEq, Repr

/-- Observable effects of the avahi timer bridge. -/
inductive AvAct where
  | stopTimerWithDone
  | startTimer
  | freeTimer
deriving DecidableEq, Repr

/-- i_gensio_avahi_timer_stopped: free if the timeout was freed; else, when
an update is in flight, finish it and restart the one-shot timer unless a
stop was requested meanwhile. -/
def i_gensio_avahi_timer_stopped (a : AvahiTimeout) : AvahiTimeout × List AvAct :=
  if a.freed then (a, [AvAct.freeTimer])
  else if a.in_update then
    let a1 := { a with in_update := false }
    if a1.stopped then (a1, []) else (a1, [AvAct.startTimer])
  else (a, [])

/-- gensio_avahi_timeout_update, with the stop_timer_with_done outcome as a
parameter: stopAccepts true means the stop was accepted and the done
callback (gensio_avahi_timer_stopped) will fire later, false means it
returned GE_TIMEDOUT and i_gensio_avahi_timer_stopped runs synchronously.
The third component records whether a done callback is now pending. -/
def gensio_avahi_timeout_update (tv : Bool) (stopAccepts : Bool)
    (a : AvahiTimeout) : AvahiTimeout × List AvAct × Bool :=
  let step := fun (a1 : AvahiTimeout) =>
    if a1.in_update then (a1, ([] : List AvAct), false)
    else
      let a2 := { a1 with in_update := true }
      if stopAccepts then (a2, [AvAct.stopTimerWithDone], true)
      else
        let p := i_gensio_avahi_timer_stopped a2
        (p.1, AvAct.stopTimerWithDone :: p.2, false)
  if tv then step { a with stopped := false }
  else if a.stopped then (a, [], false)
  else step { a with stopped := true }

/-- gensio_avahi_timer_stopped: the stop-done callback, running
i_gensio_avahi_timer_stopped under the bridge lock. -/
def gensio_avahi_timer_stopped (a : AvahiTimeout) : AvahiTimeout × List AvAct :=
  i_gensio_avahi_timer_stopped a

/-
  Lock / reference-count discipline model for the FD lower layer.  Each
  up-call dispatch path of gensio_ll_fd.c is written out as the sequence of
  atomic lock, refcount and up-call actions it performs, in source order.
  The executor places no discipline conditions on the actions: the only
  guard is the code's own assert(refcount > 0) in fd_deref_and_unlock.
  The discipline the claim states is a separate decidable predicate over
  the executed trajectory.
-/

/-- Atomic lock / refcount / up-call / free actions. -/
inductive RAct where
  | lock
  | unlock
  | ref
  | deref
  | upcall
  | free
deriving DecidableEq, Repr

/-- Lock bit, reference count, freed bit. -/
structure RSt where
  locked : Bool
  count : Nat
  freed : Bool
deriving DecidableEq, Repr

/-- One atomic action.  deref models assert(refcount > 0) followed by the
decrement: it fails (none) exactly when the assert would fire. -/
def rstep (s : RSt) : RAct → Option RSt
  | RAct.lock => some { s with locked := true }
  | RAct.unlock => some { s with locked := false }
  | RAct.ref => some { s with count := s.count + 1 }
  | RAct.deref => if s.count = 0 then none else some { s with count := s.count - 1 }
  | RAct.upcall => some s
  | RAct.free => some { s with freed := true }

/-- Run a sequence, recording each action with the state just before it,
and the final state. -/
def rtrace : RSt → List RAct → Option (List (RAct × RSt) × RSt)
  | s, [] => some ([], s)
  | s, a :: rest =>
    match rstep s a with
    | none => none
    | some s1 =>
      match rtrace s1 rest with
      | none => none
      | some (tr, fin) => some ((a, s) :: tr, fin)

/-- The claimed discipline, checked pointwise over a trajectory: up-calls
run unlocked with a live reference; ref and deref happen under the lock;
free happens with the lock released, the count at zero and the object not
yet freed. -/
def disciplined (tr : List (RAct × RSt)) : Bool :=
  tr.all fun p =>
    match p.1 with
    | RAct.upcall => !p.2.locked && !p.2.freed && decide (1 ≤ p.2.count)
    | RAct.ref => p.2.locked
    | RAct.deref => p.2.locked
    | RAct.free => !p.2.locked && !p.2.freed && decide (p.2.count = 0)
    | _ => true

/-- fd_deref_and_unlock as actions: decrement under the lock, unlock, and
free exactly when the count hit zero (c is the count at the deref). -/
def seqDerefUnlock (c : Nat) : List RAct :=
  [RAct.deref, RAct.unlock] ++ if c = 1 then [RAct.free] else []

/-- fd_write_ready in OPEN with no driver hook (c is the entry count):
fd_lock_and_ref, unlock around the WRITE_READY up-call, then
fd_deref_and_unlock. -/
def seqWriteReady (c : Nat) : List RAct :=
  [RAct.lock, RAct.ref, RAct.unlock, RAct.upcall, RAct.lock] ++ seqDerefUnlock (c + 1)

/-- fd_handle_incoming delivering n READ up-calls: fd_lock_and_ref, unlock,
the up-calls, relock, fd_deref_and_unlock. -/
def seqHandleIncoming (n c : Nat) : List RAct :=
  [RAct.lock, RAct.ref, RAct.unlock] ++ List.replicate n RAct.upcall ++
  [RAct.lock] ++ seqDerefUnlock (c + 1)

/-- fd_sched_deferred_op from a user call: the reference for the scheduled
runner is taken under the caller's lock. -/
def seqSchedDeferred : List RAct :=
  [RAct.lock, RAct.ref, RAct.unlock]

/-- fd_deferred_op (entry count c includes the runner's reference taken at
schedule time): optional deferred-close up-call, optional deferred-read
up-calls, then fd_deref_and_unlock releasing the runner's reference. -/
def seqDeferredOp (closeUp : Bool) (readUps c : Nat) : List RAct :=
  [RAct.lock] ++
  (if closeUp then [RAct.unlock, RAct.upcall, RAct.lock] else []) ++
  (if readUps = 0 then []
   else [RAct.unlock] ++ List.replicate readUps RAct.upcall ++ [RAct.lock]) ++
  seqDerefUnlock c

/-- fd_finish_cleared: fd_lock_and_ref, optional open_done up-call,
optional close_done up-call, fd_deref_and_unlock. -/
def seqFinishCleared (openUp closeUp : Bool) (c : Nat) : List RAct :=
  [RAct.lock, RAct.ref] ++
  (if openUp then [RAct.unlock, RAct.upcall, RAct.lock] else []) ++
  (if closeUp then [RAct.unlock, RAct.upcall, RAct.lock] else []) ++
  seqDerefUnlock (c + 1)

/-- fd_free: lock then fd_deref_and_unlock. -/
def seqFree (c : Nat) : List RAct :=
  [RAct.lock] ++ seqDerefUnlock c

/-- A whole-lifetime dispatch trace from allocation (count 1): a write-ready
dispatch, a scheduled deferred op with two READ deliveries, the deferred op
itself, then the owner's fd_free. -/
def lifetimeSeq : List RAct :=
  seqWriteReady 1 ++ seqSchedDeferred ++ seqHandleIncoming 2 2 ++
  seqDeferredOp false 1 2 ++ seqFree 1

/-- The FD lower layer together with the OS-level watcher bits its actions
drive and whether an OS read was ever performed. -/
structure World where
  f : FdLL
  armedRead : Bool
  armedExcept : Bool
  armedWrite : Bool
  didRead : Bool
deriving DecidableEq, Repr

/-- Fold one emitted action into the OS-visible bits. -/
def applyAct (w : World) : Act → World
  | Act.setReadHandler b => { w with armedRead := b }
  | Act.setExceptHandler b => { w with armedExcept := b }
  | Act.setWriteHandler b => { w with armedWrite := b }
  | Act.clearFdHandlers =>
      { w with armedRead := false, armedExcept := false, armedWrite := false }
  | Act.clearFdHandlersNorpt =>
      { w with armedRead := false, armedExcept := false, armedWrite := false }
  | Act.doRead => { w with didRead := true }
  | _ => w

/-- Install the new FD state and fold the emitted actions. -/
def wstep (w : World) (p : FdLL × List Act) : World :=
  p.2.foldl applyAct { w with f := p.1 }

/-- The world right after fd_gensio_ll_alloc: handlers registered but none
armed, no read done. -/
def initWorld (fd_present : Bool) (size : Nat) (wo : Bool) (ops : FdOps) : World :=
  { f := fd_gensio_ll_alloc fd_present size wo ops
    armedRead := false
    armedExcept := false
    armedWrite := false
    didRead := false }

/-- Worlds reachable from allocation under the modelled entry points.  OS
readiness events fire only when the corresponding watcher bit is armed;
the cleared event only after a close put the layer in IN_CLOSE; the
deferred op only when one was scheduled.  Driver and environment outcomes
are universally quantified parameters. -/
inductive Reach (fd_present : Bool) (size : Nat) (wo : Bool) (ops : FdOps) :
    World → Prop where
  | init : Reach fd_present size wo ops (initWorld fd_present size wo ops)
  | setRead (w : World) (b : Bool) :
      Reach fd_present size wo ops w →
      Reach fd_present size wo ops (wstep w (fd_set_read_callback_enable b w.f))
  | setWrite (w : World) (b : Bool) :
      Reach fd_present size wo ops w →
      Reach fd_present size wo ops (wstep w (fd_set_write_callback_enable b w.f))
  | close (w : World) :
      Reach fd_present size wo ops w →
      Reach fd_present size wo ops (wstep w ((fd_close w.f).1, (fd_close w.f).2.1))
  | openCall (w : World) (subErr : Nat) (ok : Bool) :
      Reach fd_present size wo ops w →
      Reach fd_present size wo ops
        (wstep w ((fd_open subErr ok w.f).1, (fd_open subErr ok w.f).2.1))
  | writeReady (w : World) (e1 e2 : Nat) (ok : Bool) :
      w.armedWrite = true →
      Reach fd_present size wo ops w →
      Reach fd_present size wo ops (wstep w (fd_write_ready e1 e2 ok w.f))
  | exceptReady (w : World) (e1 e2 : Nat) (ok : Bool) :
      w.armedExcept = true →
      Reach fd_present size wo ops w →
      Reach fd_present size wo ops (wstep w (fd_except_ready e1 e2 ok w.f))
  | readReady (w : World) (cb : Cb) (fuel k rerr : Nat) (bytes : List Nat)
      (f2 : FdLL) (acts : List Act) :
      w.armedRead = true →
      fd_read_ready cb fuel k rerr bytes w.f = (some f2, acts) →
      Reach fd_present size wo ops w →
      Reach fd_present size wo ops (wstep w (f2, acts))
  | cleared (w : World) (inProg : Bool) :
      w.f.state = FdState.InClose →
      Reach fd_present size wo ops w →
      Reach fd_present size wo ops (wstep w (fd_cleared inProg w.f))
  | closeTimer (w : World) (inProg : Bool) :
      w.f.state = FdState.InClose →
      Reach fd_present size wo ops w →
      Reach fd_present size wo ops (wstep w (fd_close_timeout inProg w.f))
  | deferredOp (w : World) (cb : Cb) (fuelO fuelI k : Nat)
      (f2 : FdLL) (acts : List Act) :
      w.f.deferred_op_pending = true →
      fd_deferred_op cb fuelO fuelI k w.f = (some f2, acts) →
      Reach fd_present size wo ops w →
      Reach fd_present size wo ops (wstep w (f2, acts))
  | disable (w : World) :
      Reach fd_present size wo ops w →
      Reach fd_present size wo ops (wstep w (fd_disable w.f))

/-- An FdOps record with every optional hook absent. -/
def opsNone : FdOps :=
  { read_ready := false, write_ready := false, except_ready := false
    check_close := false, retry_open := false, sub_open := false }

/-- Up-calls into the layer above (the gensio_ll_cb and the done
callbacks). -/
def isCallbackAct : Act → Bool
  | Act.cbRead _ _ => true
  | Act.cbWriteReady => true
  | Act.callOpenDone _ => true
  | Act.callCloseDone => true
  | _ => false

/-- Number of close_done invocations in an action list. -/
def countCloseDone (l : List Act) : Nat :=
  l.countP fun a => a == Act.callCloseDone

/-- send_done invocations of the OOB path. -/
def isSendDone : IoAct → Bool
  | IoAct.sendDone => true
  | _ => false

/-- A gensio_write that does not carry the "oob" aux tag. -/
def isNormalWrite : IoAct → Bool
  | IoAct.gensioWrite _ aux => !(aux == oobaux)
  | _ => false

/-- Number of one-shot timer starts in an avahi action list. -/
def countStartTimer (l : List AvAct) : Nat :=
  l.countP fun a => a == AvAct.startTimer

/-
  Claim theorems.
-/

/-- C7: fd_close on a layer whose state is neither OPEN nor IN_OPEN (for
instance CLOSED again after a failed open) returns GE_NOTREADY and changes
nothing; on OPEN or IN_OPEN it returns 0, records the done callback and
moves the state to IN_CLOSE. -/
theorem C7_fd_close_state_gate (f : FdLL) :
    (f.state ≠ FdState.Open ∧ f.state ≠ FdState.InOpen →
      fd_close f = (f, [], GE_NOTREADY)) ∧
    (f.state = FdState.Open ∨ f.state = FdState.InOpen →
      (fd_close f).2.2 = 0 ∧ (fd_close f).1.state = FdState.InClose ∧
      (fd_close f).1.close_done = true) := by
  constructor
  · intro h
    simp [fd_close, h.1, h.2]
  · intro h
    simp [fd_close, h, fd_start_close]

/-- Witness for C7 at concrete inputs: a closed layer is refused with
GE_NOTREADY, an open layer is accepted with return 0. -/
theorem C7_fd_close_state_gate_witness :
    fd_close (fd_gensio_ll_alloc false 4 false opsNone) =
      (fd_gensio_ll_alloc false 4 false opsNone, [], GE_NOTREADY) ∧
    (fd_close (fd_gensio_ll_alloc true 4 false opsNone)).2.2 = 0 :=
  ⟨(C7_fd_close_state_gate _).1 (by constructor <;> decide),
   ((C7_fd_close_state_gate _).2 (Or.inl (by decide))).1⟩

/-- C9: fd_disable moves the state to CLOSED, clears the FD handlers with
no cleared report, closes the handle, and performs no up-call and no
deferred-runner scheduling whatsoever. -/
theorem C9_fd_disable_no_callbacks (f : FdLL) :
    (fd_disable f).1.state = FdState.Closed ∧
    (fd_disable f).1.fd_present = false ∧
    (fd_disable f).2 = [Act.clearFdHandlersNorpt, Act.closeFd] ∧
    (∀ a ∈ (fd_disable f).2, isCallbackAct a = false ∧ a ≠ Act.runDeferred) := by
  refine ⟨rfl, rfl, rfl, ?_⟩
  intro a ha
  have h2 : a = Act.clearFdHandlersNorpt ∨ a = Act.closeFd := by
    simpa [fd_disable] using ha
  rcases h2 with rfl | rfl <;> exact ⟨rfl, by simp⟩

/-- C10: a delivery with a nonzero error invokes the upward callback
exactly once and then unconditionally resets the buffer (pos 0, len 0,
auxdata NULL), whatever count the callback returned; buffered unconsumed
bytes are discarded. -/
theorem C10_error_delivery_resets_buffer (cb : Cb) (fuel k err : Nat)
    (f : FdLL) (he : err ≠ 0) :
    fd_deliver_read_data cb (fuel + 1) k err f =
      (some { f with read_enabled := (cb k (offered f) err).2,
                     read_data_pos := 0, read_data_len := 0, auxdata := false },
       [Act.cbRead err (offered f)]) := by
  simp [fd_deliver_read_data, deliverLoop, he]

/-- Witness for C10: a concrete error delivery with a full buffer and a
consumer taking one byte still resets everything. -/
theorem C10_error_delivery_resets_buffer_witness :
    fd_deliver_read_data (fun _ _ _ => (1, false)) 3 0 7
        { fd_gensio_ll_alloc true 4 false opsNone with
            read_data := [7, 8, 9, 0], read_data_len := 3 } =
      (some { fd_gensio_ll_alloc true 4 false opsNone with
                read_data := [7, 8, 9, 0], read_data_len := 0,
                read_data_pos := 0, read_enabled := false, auxdata := false },
       [Act.cbRead 7 [7, 8, 9]]) := by
  have h := C10_error_delivery_resets_buffer (fun _ _ _ => (1, false)) 2 0 7
    { fd_gensio_ll_alloc true 4 false opsNone with
        read_data := [7, 8, 9, 0], read_data_len := 3 } (by decide)
  simpa [offered, fd_gensio_ll_alloc, opsNone] using h

/-- C4: a WRITE_READY with a non-empty OOB queue writes the head record
with aux tag "oob" and nothing else in that dispatch is a normal write or
a read re-enable; a short write advances the head in place and invokes no
send_done; a complete write dequeues the head and invokes its send_done
(when present) exactly once. -/
theorem C4_oob_write_ready (count : Nat) (oob : IoinfoOob)
    (rest : List IoinfoOob) (s : Ioinfo) (h : s.oobq = oob :: rest) :
    (io_event_write_ready count s).2.head? =
      some (IoAct.gensioWrite oob.buf oobaux) ∧
    (∀ a ∈ (io_event_write_ready count s).2, isNormalWrite a = false) ∧
    IoAct.setReadEnableOther true ∉ (io_event_write_ready count s).2 ∧
    (count < oob.buf.length →
      (io_event_write_ready count s).1.oobq =
        { buf := oob.buf.drop count, send_done := oob.send_done } :: rest ∧
      (io_event_write_ready count s).2.countP isSendDone = 0) ∧
    (count ≥ oob.buf.length →
      (io_event_write_ready count s).1.oobq = rest ∧
      (io_event_write_ready count s).2.countP isSendDone =
        (if oob.send_done then 1 else 0)) := by
  cases s with
  | mk q =>
    cases h
    by_cases hge : count ≥ oob.buf.length
    · cases hsd : oob.send_done <;>
        simp [io_event_write_ready, hge, hsd, isNormalWrite, isSendDone,
              Nat.not_lt_of_le hge]
    · have hlt : count < oob.buf.length := Nat.lt_of_not_le hge
      simp [io_event_write_ready, hge, isNormalWrite, isSendDone, hlt]

/-- Witness for C4, the 100-byte record with a 40-byte then a 60-byte
write: no send_done after the short write, the head advanced to the
60-byte suffix, then exactly one send_done and the queue drained. -/
theorem C4_oob_write_ready_witness :
    (io_event_write_ready 40 ⟨[⟨List.replicate 100 1, true⟩]⟩).2.countP
        isSendDone = 0 ∧
    (io_event_write_ready 40 ⟨[⟨List.replicate 100 1, true⟩]⟩).1.oobq =
      [⟨List.replicate 60 1, true⟩] ∧
    (io_event_write_ready 60 ⟨[⟨List.replicate 60 1, true⟩]⟩).2.countP
        isSendDone = 1 ∧
    (io_event_write_ready 60 ⟨[⟨List.replicate 60 1, true⟩]⟩).1.oobq = [] := by
  have h1 := (C4_oob_write_ready 40 ⟨List.replicate 100 1, true⟩ []
      ⟨[⟨List.replicate 100 1, true⟩]⟩ rfl).2.2.2.1 (by decide)
  have h2 := (C4_oob_write_ready 60 ⟨List.replicate 60 1, true⟩ []
      ⟨[⟨List.replicate 60 1, true⟩]⟩ rfl).2.2.2.2 (by decide)
  refine ⟨h1.2, ?_, ?_, h2.1⟩
  · rw [h1.1]
    decide
  · simpa using h2.2

/-- C8: a timeout_update with a non-NULL expiry from a quiescent state
restarts the one-shot timer exactly once - synchronously when
stop_timer_with_done reports GE_TIMEDOUT, through the pending stop-done
callback when the stop was accepted - never lost and never doubled. -/
theorem C8_avahi_restart_exactly_once (a : AvahiTimeout) (sa : Bool)
    (h1 : a.in_update = false) (h2 : a.freed = false) :
    countStartTimer
      ((gensio_avahi_timeout_update true sa a).2.1 ++
       (if (gensio_avahi_timeout_update true sa a).2.2 then
          (gensio_avahi_timer_stopped
            (gensio_avahi_timeout_update true sa a).1).2
        else [])) = 1 ∧
    (gensio_avahi_timeout_update true sa a).2.2 = sa ∧
    (sa = false →
      countStartTimer (gensio_avahi_timeout_update true sa a).2.1 = 1) ∧
    (sa = true →
      countStartTimer (gensio_avahi_timeout_update true sa a).2.1 = 0) := by
  cases sa <;>
    simp [gensio_avahi_timeout_update, gensio_avahi_timer_stopped,
          i_gensio_avahi_timer_stopped, countStartTimer, h1, h2]

/-- Witness for C8 at a concrete stopped timeout, for both
stop_timer_with_done outcomes. -/
theorem C8_avahi_restart_exactly_once_witness :
    countStartTimer
      ((gensio_avahi_timeout_update true false ⟨true, false, false⟩).2.1 ++
       (if (gensio_avahi_timeout_update true false ⟨true, false, false⟩).2.2 then
          (gensio_avahi_timer_stopped
            (gensio_avahi_timeout_update true false ⟨true, false, false⟩).1).2
        else [])) = 1 ∧
    countStartTimer
      ((gensio_avahi_timeout_update true true ⟨true, false, false⟩).2.1 ++
       (if (gensio_avahi_timeout_update true true ⟨true, false, false⟩).2.2 then
          (gensio_avahi_timer_stopped
            (gensio_avahi_timeout_update true true ⟨true, false, false⟩).1).2
        else [])) = 1 :=
  ⟨(C8_avahi_restart_exactly_once ⟨true, false, false⟩ false rfl rfl).1,
   (C8_avahi_restart_exactly_once ⟨true, false, false⟩ true rfl rfl).1⟩

/-- Every action the delivery loop emits is a READ up-call. -/
theorem deliverLoop_acts_cbRead (cb : Cb) (err : Nat) :
    ∀ fuel k f a, a ∈ (deliverLoop cb err fuel k f).2 →
      ∃ e o, a = Act.cbRead e o := by
  intro fuel
  induction fuel with
  | zero =>
    intro k f a ha
    simp [deliverLoop] at ha
  | succ n ih =>
    intro k f a ha
    by_cases h1 : err ≠ 0 ∨ (cb k (offered f) err).1 ≥ f.read_data_len
    · simp [deliverLoop, h1] at ha
      exact ⟨err, offered f, ha⟩
    · by_cases h2 : (cb k (offered f) err).2 = true
      · simp [deliverLoop, h1, h2] at ha
        rcases ha with rfl | ha
        · exact ⟨err, offered f, rfl⟩
        · exact ih _ _ _ ha
      · simp [deliverLoop, h1, h2] at ha
        exact ⟨err, offered f, ha⟩

/-- With fuel left, the delivery loop's first action offers the current
window. -/
theorem deliverLoop_head (cb : Cb) (err fuel k : Nat) (f : FdLL) :
    ((deliverLoop cb err (fuel + 1) k f).2).head? =
      some (Act.cbRead err (offered f)) := by
  by_cases h1 : err ≠ 0 ∨ (cb k (offered f) err).1 ≥ f.read_data_len
  · simp [deliverLoop, h1]
  · by_cases h2 : (cb k (offered f) err).2 = true
    · simp [deliverLoop, h1, h2]
    · simp [deliverLoop, h1, h2]

/-- The delivery loop never changes the deferred_read flag. -/
theorem deliverLoop_deferred_read (cb : Cb) (err : Nat) :
    ∀ fuel k f f2 acts, deliverLoop cb err fuel k f = (some f2, acts) →
      f2.deferred_read = f.deferred_read := by
  intro fuel
  induction fuel with
  | zero =>
    intro k f f2 acts h
    simp [deliverLoop] at h
  | succ n ih =>
    intro k f f2 acts h
    by_cases h1 : err ≠ 0 ∨ (cb k (offered f) err).1 ≥ f.read_data_len
    · simp [deliverLoop, h1] at h
      obtain ⟨h2, -⟩ := h
      subst h2
      rfl
    · by_cases h2 : (cb k (offered f) err).2 = true
      · simp [deliverLoop, h1, h2] at h
        cases hres2 : deliverLoop cb err n (k + 1)
            { f with read_enabled := true,
                     read_data_len := f.read_data_len - (cb k (offered f) err).1,
                     read_data_pos := f.read_data_pos + (cb k (offered f) err).1 } with
        | mk o2 acts2 =>
          rw [hres2] at h
          cases o2 with
          | none => simp at h
          | some f3 =>
            obtain ⟨h3, -⟩ := h
            simp at h3
            subst h3
            exact (ih _ _ _ _ hres2).trans rfl
      · simp [deliverLoop, h1, h2] at h
        obtain ⟨h3, -⟩ := h
        subst h3
        rfl

/-- C1: a consumer that takes c < len bytes leaves the unconsumed suffix
in the buffer (pos advanced by c, len reduced by c) and nothing is lost or
reordered; a later set_read_callback_enable(true) leaves the window intact
and schedules the deferred runner; the deferred op's first READ up-call
then offers exactly the retained suffix. -/
theorem C1_short_read_suffix_preserved :
    (∀ (f : FdLL) (cb : Cb) (k c : Nat),
      f.read_data_len ≠ 0 → cb k (offered f) 0 = (c, false) →
      c < f.read_data_len →
      fd_deliver_read_data cb 1 k 0 f =
        (some { f with read_enabled := false,
                       read_data_pos := f.read_data_pos + c,
                       read_data_len := f.read_data_len - c },
         [Act.cbRead 0 (offered f)]) ∧
      offered { f with read_enabled := false,
                       read_data_pos := f.read_data_pos + c,
                       read_data_len := f.read_data_len - c } =
        (offered f).drop c ∧
      (offered f).take c ++ (offered f).drop c = offered f) ∧
    (∀ g : FdLL, g.write_only = false → g.in_read = false →
      g.state = FdState.Open → g.read_data_len ≠ 0 →
      g.deferred_op_pending = false →
      fd_set_read_callback_enable true g =
        ({ g with read_enabled := true, in_read := true, deferred_read := true,
                  deferred_op_pending := true, refcount := g.refcount + 1 },
         [Act.runDeferred])) ∧
    (∀ (g : FdLL) (cb : Cb) (fuelI k : Nat),
      g.deferred_close = false → g.deferred_read = true →
      g.read_data_len ≠ 0 →
      ((fd_deferred_op cb 2 (fuelI + 1) k g).2).head? =
        some (Act.cbRead 0 (offered g))) := by
  refine ⟨?_, ?_, ?_⟩
  · intro f cb k c hlen hcb hc
    obtain ⟨st, rc, fp, re, we, wo, rd, rds, rdl, rdp, ax, ir, dop, dr, dc, od, oe,
        cd, os⟩ := f
    simp only [offered] at hcb
    replace hlen : rdl ≠ 0 := hlen
    replace hc : c < rdl := hc
    have hnle : ¬ rdl ≤ c := Nat.not_le.mpr hc
    refine ⟨?_, ?_, List.take_append_drop c _⟩
    · simp [fd_deliver_read_data, hlen, deliverLoop, offered, hcb, hnle]
    · simp [offered, List.drop_take, List.drop_drop]
  · intro g hwo hir hst hlen hp
    simp [fd_set_read_callback_enable, hwo, hir, hst, hlen, fd_sched_deferred_op, hp]
  · intro g cb fuelI k hdc hdr hlen
    obtain ⟨st, rc, fp, re, we, wo, rd, rds, rdl, rdp, ax, ir, dop, dr, dc, od, oe,
        cd, os⟩ := g
    replace hdc : dc = false := hdc
    replace hdr : dr = true := hdr
    replace hlen : rdl ≠ 0 := hlen
    subst hdc
    subst hdr
    have hh := deliverLoop_head cb 0 fuelI k
      ⟨st, rc, fp, re, we, wo, rd, rds, rdl, rdp, ax, ir, dop, false, false, od, oe,
       cd, os⟩
    cases hres : deliverLoop cb 0 (fuelI + 1) k
        ⟨st, rc, fp, re, we, wo, rd, rds, rdl, rdp, ax, ir, dop, false, false, od, oe,
         cd, os⟩ with
    | mk o acts =>
      rw [hres] at hh
      cases o with
      | none =>
        simp only [offered] at hh ⊢
        simp [fd_deferred_op, deferredReadLoop, fd_deliver_read_data, hlen, hres]
        simpa using hh
      | some f2 =>
        have hdr2 : f2.deferred_read = false :=
          deliverLoop_deferred_read cb 0 (fuelI + 1) k _ _ _ hres
        simp only [offered] at hh ⊢
        simp [fd_deferred_op, deferredReadLoop, fd_deliver_read_data, hlen, hres,
              hdr2, List.head?_append]
        exact Or.inl hh

/-- Witness for C1: a buffer [7, 8, 9] whose consumer takes one byte; the
suffix [8, 9] is retained, the re-enable schedules the runner, and the
deferred op re-offers [8, 9] first. -/
theorem C1_short_read_suffix_preserved_witness :
    (fd_deliver_read_data (fun _ _ _ => (1, false)) 1 0 0
        { fd_gensio_ll_alloc true 4 false opsNone with
            read_data := [7, 8, 9, 0], read_data_len := 3 }).2 =
      [Act.cbRead 0 [7, 8, 9]] ∧
    offered { fd_gensio_ll_alloc true 4 false opsNone with
                read_data := [7, 8, 9, 0], read_data_len := 2,
                read_data_pos := 1, read_enabled := false } = [8, 9] ∧
    (fd_set_read_callback_enable true
        { fd_gensio_ll_alloc true 4 false opsNone with
            read_data := [7, 8, 9, 0], read_data_len := 2,
            read_data_pos := 1 }).2 = [Act.runDeferred] ∧
    ((fd_deferred_op (fun _ _ _ => (2, true)) 2 1 1
        { fd_gensio_ll_alloc true 4 false opsNone with
            read_data := [7, 8, 9, 0], read_data_len := 2,
            read_data_pos := 1, read_enabled := true, in_read := true,
            deferred_read := true, deferred_op_pending := true,
            refcount := 2 }).2).head? = some (Act.cbRead 0 [8, 9]) := by
  have hA := C1_short_read_suffix_preserved.1
    { fd_gensio_ll_alloc true 4 false opsNone with
        read_data := [7, 8, 9, 0], read_data_len := 3 }
    (fun _ _ _ => (1, false)) 0 1 (by decide) (by decide) (by decide)
  have hB := C1_short_read_suffix_preserved.2.1
    { fd_gensio_ll_alloc true 4 false opsNone with
        read_data := [7, 8, 9, 0], read_data_len := 2, read_data_pos := 1 }
    (by decide) (by decide) (by decide) (by decide) (by decide)
  have hC := C1_short_read_suffix_preserved.2.2
    { fd_gensio_ll_alloc true 4 false opsNone with
        read_data := [7, 8, 9, 0], read_data_len := 2, read_data_pos := 1,
        read_enabled := true, in_read := true, deferred_read := true,
        deferred_op_pending := true, refcount := 2 }
    (fun _ _ _ => (2, true)) 0 1 (by decide) (by decide) (by decide)
  refine ⟨?_, by decide, ?_, ?_⟩
  · rw [hA.1]
    decide
  · rw [hB]
  · rw [hC]
    decide

/-- A consumer that takes zero bytes and leaves read enabled. -/
def cbZero : Cb := fun _ _ _ => (0, true)

/-- An open FD lower layer holding one buffered byte. -/
def fBufOne : FdLL :=
  { fd_gensio_ll_alloc true 1 false opsNone with
      read_data := [7], read_data_len := 1 }

/-- Counterexample to C2 as stated: with one buffered byte and a consumer
that takes zero while read stays enabled, a single fd_deliver_read_data
call invokes the consumer twice back to back - an immediate synchronous
re-invocation inside the retry loop - and never schedules the deferred
runner; the none in the first component reflects that the loop is still
spinning when the fuel runs out (the C code busy-loops). -/
theorem C2_counterexample_immediate_synchronous_retry :
    (fd_deliver_read_data cbZero 2 0 0 fBufOne).2 =
      [Act.cbRead 0 [7], Act.cbRead 0 [7]] ∧
    Act.runDeferred ∉ (fd_deliver_read_data cbZero 2 0 0 fBufOne).2 ∧
    (fd_deliver_read_data cbZero 2 0 0 fBufOne).1 = none := by
  decide

/-- One iteration of the delivery loop under a zero-consume, read-enabled
consumer: the callback runs and the loop immediately re-enters with the
same window. -/
theorem deliverLoop_zero_step (cb : Cb) (fuel k : Nat) (f : FdLL)
    (hlen : f.read_data_len ≠ 0) (hcb : cb k (offered f) 0 = (0, true)) :
    deliverLoop cb 0 (fuel + 1) k f =
      ((deliverLoop cb 0 fuel (k + 1) { f with read_enabled := true }).1,
       Act.cbRead 0 (offered f) ::
         (deliverLoop cb 0 fuel (k + 1) { f with read_enabled := true }).2) := by
  obtain ⟨st, rc, fp, re, we, wo, rd, rds, rdl, rdp, ax, ir, dop, dr, dc, od, oe,
      cd, os⟩ := f
  replace hlen : rdl ≠ 0 := hlen
  simp only [offered] at hcb
  simp [deliverLoop, offered, hcb, hlen, Nat.le_zero]

/-- Amended C2: when the consumer takes zero bytes with read still
enabled, fd_deliver_read_data repeats the delivery immediately and
synchronously inside its own retry loop - the very next action offers the
same window again - and the delivery path never schedules the deferred
runner. -/
theorem C2_zero_consume_synchronous_retry (f : FdLL) (cb : Cb) (k fuel : Nat)
    (hlen : f.read_data_len ≠ 0) (hcb : cb k (offered f) 0 = (0, true)) :
    ((fd_deliver_read_data cb (fuel + 1 + 1) k 0 f).2).head? =
      some (Act.cbRead 0 (offered f)) ∧
    ((fd_deliver_read_data cb (fuel + 1 + 1) k 0 f).2).tail.head? =
      some (Act.cbRead 0 (offered f)) ∧
    (∀ a ∈ (fd_deliver_read_data cb (fuel + 1 + 1) k 0 f).2,
      a ≠ Act.runDeferred) := by
  have hd : fd_deliver_read_data cb (fuel + 1 + 1) k 0 f =
      deliverLoop cb 0 (fuel + 1 + 1) k f := by
    simp [fd_deliver_read_data, hlen]
  have hs := deliverLoop_zero_step cb (fuel + 1) k f hlen hcb
  have hh := deliverLoop_head cb 0 fuel (k + 1) { f with read_enabled := true }
  have hoff : offered { f with read_enabled := true } = offered f := by
    simp [offered]
  rw [hoff] at hh
  refine ⟨?_, ?_, ?_⟩
  · rw [hd, hs]
    simp
  · rw [hd, hs]
    simpa using hh
  · intro a ha
    rw [hd] at ha
    obtain ⟨e, o, rfl⟩ := deliverLoop_acts_cbRead cb 0 _ _ _ _ ha
    simp

/-- Witness for the amended C2 at the one-byte buffer and the
zero-consume consumer. -/
theorem C2_zero_consume_synchronous_retry_witness :
    ((fd_deliver_read_data cbZero (0 + 1 + 1) 0 0 fBufOne).2).head? =
      some (Act.cbRead 0 [7]) ∧
    ((fd_deliver_read_data cbZero (0 + 1 + 1) 0 0 fBufOne).2).tail.head? =
      some (Act.cbRead 0 [7]) := by
  have h := C2_zero_consume_synchronous_retry fBufOne cbZero 0 0
    (by decide) (by decide)
  refine ⟨?_, ?_⟩
  · rw [h.1]
    decide
  · rw [h.2.1]
    decide

/-- A layer in IN_CLOSE with the close-done recorded and no deferred op
pending, as left by an accepted fd_close. -/
def fInCloseNoDef : FdLL :=
  { fd_gensio_ll_alloc true 4 false opsNone with
      state := FdState.InClose, close_done := true }

/-- Counterexample to C3 as stated: when no deferred op is pending at
cleared time, close_done is invoked directly from the OS cleared handler
(fd_cleared via fd_finish_cleared and fd_finish_close), not from the
deferred runner: the dispatch emits the up-call itself and schedules
nothing. -/
theorem C3_counterexample_done_from_cleared_handler :
    fInCloseNoDef.deferred_op_pending = false ∧
    (fd_cleared false fInCloseNoDef).2 = [Act.closeFd, Act.callCloseDone] ∧
    Act.runDeferred ∉ (fd_cleared false fInCloseNoDef).2 := by
  decide

/-- Amended C3: for every accepted close, close_done is invoked exactly
once: directly from the cleared handler when no deferred op is pending,
or handed to the deferred runner through deferred_close when one is; the
accepted fd_close itself never invokes it, and after the invocation the
recorded callback is cleared so it cannot fire again. -/
theorem C3_close_done_exactly_once :
    (∀ f : FdLL, f.state = FdState.Open ∨ f.state = FdState.InOpen →
      (fd_close f).2.2 = 0 ∧ (fd_close f).1.close_done = true ∧
      countCloseDone (fd_close f).2.1 = 0) ∧
    (∀ g : FdLL, g.close_done = true → g.deferred_op_pending = false →
      countCloseDone (fd_finish_cleared g).2 = 1 ∧
      (fd_finish_cleared g).1.close_done = false) ∧
    (∀ g : FdLL, g.close_done = true → g.deferred_op_pending = true →
      countCloseDone (fd_finish_cleared g).2 = 0 ∧
      (fd_finish_cleared g).1.deferred_close = true ∧
      (fd_finish_cleared g).1.close_done = true) ∧
    (∀ (h : FdLL) (cb : Cb) (fO fI k : Nat),
      h.deferred_close = true → h.close_done = true → h.deferred_read = false →
      countCloseDone (fd_deferred_op cb (fO + 1) fI k h).2 = 1 ∧
      (∀ f2, (fd_deferred_op cb (fO + 1) fI k h).1 = some f2 →
        f2.close_done = false ∧ f2.deferred_close = false)) ∧
    (∀ h : FdLL, h.close_done = false →
      countCloseDone (fd_finish_close h).2 = 0) := by
  refine ⟨?_, ?_, ?_, ?_, ?_⟩
  · intro f hst
    cases hcc : f.ops.check_close <;>
      simp [fd_close, hst, fd_start_close, countCloseDone, hcc]
  · intro g hcd hp
    cases hod : g.open_done <;>
      simp [fd_finish_cleared, fd_finish_close, countCloseDone, hcd, hp, hod]
  · intro g hcd hp
    cases hod : g.open_done <;>
      simp [fd_finish_cleared, fd_finish_close, countCloseDone, hcd, hp, hod]
  · intro h cb fO fI k hdc hcd hdr
    constructor
    · by_cases hrc : h.refcount = 1 <;>
        simp [fd_deferred_op, fd_finish_close, deferredReadLoop, fd_deref,
              countCloseDone, hdc, hcd, hdr, hrc]
    · intro f2 hf2
      by_cases hrc : h.refcount = 1 <;>
        simp [fd_deferred_op, fd_finish_close, deferredReadLoop, fd_deref,
              hdc, hcd, hdr, hrc] at hf2 <;>
        subst hf2 <;> exact ⟨rfl, rfl⟩
  · intro h hcd
    simp [fd_finish_close, countCloseDone, hcd]

/-- Witness for the amended C3: the concrete accepted close finished
directly from the cleared handler fires the done once; with a pending
deferred op the cleared handler fires nothing and the deferred op fires
it exactly once. -/
theorem C3_close_done_exactly_once_witness :
    countCloseDone (fd_finish_cleared fInCloseNoDef).2 = 1 ∧
    countCloseDone
      (fd_finish_cleared
        { fInCloseNoDef with deferred_op_pending := true }).2 = 0 ∧
    countCloseDone
      ((fd_deferred_op cbZero (0 + 1) 1 0
        (fd_finish_cleared
          { fInCloseNoDef with deferred_op_pending := true }).1).2) = 1 := by
  refine ⟨(C3_close_done_exactly_once.2.1 fInCloseNoDef rfl rfl).1,
          (C3_close_done_exactly_once.2.2.1 _ rfl rfl).1,
          (C3_close_done_exactly_once.2.2.2.1 _ cbZero 0 1 0
            (by decide) (by decide) (by decide)).1⟩

/-- rtrace distributes over append. -/
theorem rtrace_append (s : RSt) (l1 l2 : List RAct) :
    rtrace s (l1 ++ l2) =
      (rtrace s l1).bind fun p =>
        (rtrace p.2 l2).map fun q => (p.1 ++ q.1, q.2) := by
  induction l1 generalizing s with
  | nil =>
    simp [rtrace]
  | cons a rest ih =>
    cases h : rstep s a with
    | none => simp [rtrace, h]
    | some s1 =>
      simp only [List.cons_append, rtrace, h, List.append_eq]
      rw [ih]
      cases hr : rtrace s1 rest with
      | none => rfl
      | some p =>
        obtain ⟨tr, fin⟩ := p
        cases hq : rtrace fin l2 with
        | none => simp [hq]
        | some q =>
          obtain ⟨t2, f2⟩ := q
          simp [hq]

/-- A block of up-calls leaves the state alone and records it at each
step. -/
theorem rtrace_upcalls (s : RSt) (n : Nat) :
    rtrace s (List.replicate n RAct.upcall) =
      some (List.replicate n (RAct.upcall, s), s) := by
  induction n with
  | zero => simp [rtrace]
  | succ n ih => simp [List.replicate_succ, rtrace, rstep, ih]

/-- A block of up-calls from an unlocked, live, unfreed state is
disciplined. -/
theorem disciplined_replicate_upcall (n : Nat) (s : RSt)
    (hl : s.locked = false) (hf : s.freed = false) (hcnt : 1 ≤ s.count) :
    disciplined (List.replicate n (RAct.upcall, s)) = true := by
  induction n with
  | zero => simp [disciplined]
  | succ n ih =>
    simp only [disciplined, List.replicate_succ, List.all_cons] at ih ⊢
    simp [hl, hf, hcnt, ih]

/-- C5: each up-call dispatch path of the FD lower layer, written out as
its lock, reference and up-call actions in source order, executes without
ever tripping the refcount assert, and its trajectory is disciplined:
references are taken under the lock before it is dropped for the up-call,
released under the lock afterwards, every up-call runs unlocked holding a
live reference, and a whole-lifetime composition frees the object exactly
once, as the very last action, with the count at zero and the lock
released. -/
theorem C5_refcount_discipline (c n rups : Nat) (closeUp openUp : Bool)
    (hc : 1 ≤ c) :
    (rtrace ⟨false, c, false⟩ (seqWriteReady c)).map
        (fun p => (disciplined p.1, p.2)) =
      some (true, ⟨false, c, false⟩) ∧
    (rtrace ⟨false, c, false⟩ (seqHandleIncoming n c)).map
        (fun p => (disciplined p.1, p.2)) =
      some (true, ⟨false, c, false⟩) ∧
    (rtrace ⟨false, c, false⟩ seqSchedDeferred).map
        (fun p => (disciplined p.1, p.2)) =
      some (true, ⟨false, c + 1, false⟩) ∧
    (rtrace ⟨false, c + 1, false⟩ (seqDeferredOp closeUp rups (c + 1))).map
        (fun p => (disciplined p.1, p.2)) =
      some (true, ⟨false, c, false⟩) ∧
    (rtrace ⟨false, c, false⟩ (seqFinishCleared openUp closeUp c)).map
        (fun p => (disciplined p.1, p.2)) =
      some (true, ⟨false, c, false⟩) ∧
    ((rtrace ⟨false, 1, false⟩ lifetimeSeq).map
        (fun p => (disciplined p.1,
                   p.1.countP (fun q => q.1 == RAct.free),
                   p.1.countP (fun q => q.1 == RAct.deref && q.2.count == 1),
                   p.1.getLast?.map (fun q => q.1), p.2)) =
      some (true, 1, 1, some RAct.free, ⟨false, 0, true⟩)) := by
  have h0 : c + 1 ≠ 0 := by omega
  have h1 : c + 1 ≠ 1 := by omega
  have hup := disciplined_replicate_upcall n ⟨false, c + 1, false⟩ rfl rfl
    (by simp)
  have hupe := rtrace_upcalls ⟨false, c + 1, false⟩ n
  refine ⟨?_, ?_, ?_, ?_, ?_, by decide⟩
  · simp [seqWriteReady, seqDerefUnlock, rtrace, rstep, disciplined, h0, h1, hc]
  · simp [seqHandleIncoming, seqDerefUnlock, List.append_assoc, rtrace_append,
          rtrace, rstep, hupe, disciplined, List.all_append, hup, h0, h1]
  · simp [seqSchedDeferred, rtrace, rstep, disciplined]
  · cases closeUp <;>
      rcases rups with _ | m <;>
      simp [seqDeferredOp, seqDerefUnlock, List.append_assoc, rtrace_append,
            rtrace, rstep, rtrace_upcalls, disciplined, List.all_append,
            disciplined_replicate_upcall, h0, h1]
  · cases openUp <;> cases closeUp <;>
      simp [seqFinishCleared, seqDerefUnlock, rtrace, rstep, disciplined,
            h0, h1, hc]

/-- Witness for C5: the whole-lifetime trace from a single reference is
disciplined, frees exactly once as its last action, and hits count zero
exactly once. -/
theorem C5_refcount_discipline_witness :
    ((rtrace ⟨false, 1, false⟩ lifetimeSeq).map
        (fun p => (disciplined p.1,
                   p.1.countP (fun q => q.1 == RAct.free),
                   p.1.countP (fun q => q.1 == RAct.deref && q.2.count == 1),
                   p.1.getLast?.map (fun q => q.1), p.2)) =
      some (true, 1, 1, some RAct.free, ⟨false, 0, true⟩)) :=
  (C5_refcount_discipline 1 2 1 true true (by decide)).2.2.2.2.2

/-- Counterexample to C6 as stated: an FD lower layer created with read
buffer size 0 but without the write_only flag does arm the OS read-ready
handler on set_read_callback_enable(true); the code guards arming on the
write_only flag alone, not on the buffer size. -/
theorem C6_counterexample_size_zero_arms_read :
    (fd_gensio_ll_alloc true 0 false opsNone).read_data_size = 0 ∧
    (fd_gensio_ll_alloc true 0 false opsNone).write_only = false ∧
    (fd_set_read_callback_enable true
        (fd_gensio_ll_alloc true 0 false opsNone)).2 =
      [Act.setReadHandler true, Act.setExceptHandler true] := by
  decide

/-- The FdLL fields the write-only invariant tracks. -/
def FInv (f : FdLL) : Prop :=
  f.write_only = true ∧ f.read_enabled = false ∧ f.deferred_read = false

/-- An action list that never arms the read handler and never performs an
OS read. -/
def SafeActs (l : List Act) : Prop :=
  (∀ b, Act.setReadHandler b ∈ l → b = false) ∧ Act.doRead ∉ l

theorem SafeActs_append (l1 l2 : List Act) (h1 : SafeActs l1)
    (h2 : SafeActs l2) : SafeActs (l1 ++ l2) := by
  obtain ⟨a1, b1⟩ := h1
  obtain ⟨a2, b2⟩ := h2
  constructor
  · intro b hb
    rcases List.mem_append.mp hb with hm | hm
    · exact a1 b hm
    · exact a2 b hm
  · simp only [List.mem_append, not_or]
    exact ⟨b1, b2⟩

theorem foldl_applyAct_f (l : List Act) :
    ∀ w : World, (l.foldl applyAct w).f = w.f := by
  induction l with
  | nil => intro w; rfl
  | cons a rest ih =>
    intro w
    rw [List.foldl_cons, ih]
    cases a <;> rfl

theorem foldl_applyAct_armedRead (l : List Act) :
    ∀ w : World, w.armedRead = false →
      (∀ b, Act.setReadHandler b ∈ l → b = false) →
      (l.foldl applyAct w).armedRead = false := by
  induction l with
  | nil =>
    intro w hw _
    simpa using hw
  | cons a rest ih =>
    intro w hw hl
    rw [List.foldl_cons]
    refine ih _ ?_ (fun b hb => hl b (List.mem_cons_of_mem _ hb))
    cases a with
    | setReadHandler b =>
      have : b = false := hl b (List.mem_cons_self _ _)
      simp [applyAct, this]
    | _ => first
      | simpa [applyAct] using hw
      | simp [applyAct]

theorem foldl_applyAct_didRead (l : List Act) :
    ∀ w : World, w.didRead = false → Act.doRead ∉ l →
      (l.foldl applyAct w).didRead = false := by
  induction l with
  | nil =>
    intro w hw _
    simpa using hw
  | cons a rest ih =>
    intro w hw hl
    rw [List.foldl_cons]
    refine ih _ ?_ (fun hb => hl (List.mem_cons_of_mem _ hb))
    cases a with
    | doRead => exact absurd (List.mem_cons_self _ _) hl
    | _ => first
      | simpa [applyAct] using hw
      | simp [applyAct]

theorem wstep_preserves (w : World) (p : FdLL × List Act)
    (h1 : FInv p.1) (h2 : SafeActs p.2)
    (har : w.armedRead = false) (hdr : w.didRead = false) :
    FInv (wstep w p).f ∧ (wstep w p).armedRead = false ∧
    (wstep w p).didRead = false := by
  refine ⟨?_, ?_, ?_⟩
  · rw [wstep, foldl_applyAct_f]
    exact h1
  · exact foldl_applyAct_armedRead _ _ har h2.1
  · exact foldl_applyAct_didRead _ _ hdr h2.2

theorem safe_set_read (b : Bool) (f : FdLL) (hwo : f.write_only = true) :
    fd_set_read_callback_enable b f = (f, []) := by
  simp [fd_set_read_callback_enable, hwo]

theorem safe_set_write (b : Bool) (f : FdLL) (h : FInv f) :
    FInv (fd_set_write_callback_enable b f).1 ∧
    SafeActs (fd_set_write_callback_enable b f).2 := by
  obtain ⟨hw, hr, hd⟩ := h
  by_cases hst : f.state = FdState.Open ∨ f.state = FdState.InOpen <;>
    simp [fd_set_write_callback_enable, FInv, SafeActs, hst, hw, hr, hd]

theorem safe_close (f : FdLL) (h : FInv f) :
    FInv (fd_close f).1 ∧ SafeActs (fd_close f).2.1 := by
  obtain ⟨hw, hr, hd⟩ := h
  by_cases hst : f.state = FdState.Open ∨ f.state = FdState.InOpen <;>
    cases hcc : f.ops.check_close <;>
    simp [fd_close, fd_start_close, FInv, SafeActs, hst, hcc, hw, hr, hd]

theorem safe_open (subErr : Nat) (ok : Bool) (f : FdLL) (h : FInv f) :
    FInv (fd_open subErr ok f).1 ∧ SafeActs (fd_open subErr ok f).2.1 := by
  obtain ⟨hw, hr, hd⟩ := h
  simp only [fd_open]
  split_ifs <;> simp [FInv, SafeActs, hw, hr, hd]

theorem safe_finish_open (err : Nat) (f : FdLL) (h : FInv f) :
    FInv (fd_finish_open err f).1 ∧ SafeActs (fd_finish_open err f).2 := by
  obtain ⟨hw, hr, hd⟩ := h
  simp only [fd_finish_open, fd_start_close]
  split_ifs <;> simp_all [FInv, SafeActs, hw, hd]

theorem safe_handle_write_ready (e1 e2 : Nat) (ok : Bool) (f : FdLL)
    (h : FInv f) :
    FInv (fd_handle_write_ready e1 e2 ok f).1 ∧
    SafeActs (fd_handle_write_ready e1 e2 ok f).2 := by
  have hro := safe_finish_open e2
    { f with fd_present := e2 = 0 ∨ e2 = GE_INPROGRESS } h
  have hrn := safe_finish_open GE_NOMEM
    { f with fd_present := e2 = 0 ∨ e2 = GE_INPROGRESS } h
  have hce := safe_finish_open e1 f h
  obtain ⟨hw, hr, hd⟩ := h
  simp only [fd_handle_write_ready]
  split_ifs <;>
    first
      | (constructor
         · first
             | exact hro.1
             | exact hrn.1
             | exact hce.1
             | exact ⟨hw, hr, hd⟩
         · refine SafeActs_append _ _ ⟨by simp, by simp⟩ ?_
           first
             | exact hro.2
             | exact hrn.2
             | exact hce.2
             | refine SafeActs_append _ _ ⟨by simp, by simp⟩ ?_
               first
                 | exact hro.2
                 | exact hrn.2
                 | simp [SafeActs])
      | simp_all [FInv, SafeActs, hw, hr, hd]

theorem safe_deref (f : FdLL) (h : FInv f) :
    FInv (fd_deref f).1 ∧ SafeActs (fd_deref f).2 := by
  by_cases hrc : f.refcount = 1 <;>
    simp [fd_deref, FInv, SafeActs, hrc, h.1, h.2.1, h.2.2]

theorem safe_write_ready (e1 e2 : Nat) (ok : Bool) (f : FdLL) (h : FInv f) :
    FInv (fd_write_ready e1 e2 ok f).1 ∧
    SafeActs (fd_write_ready e1 e2 ok f).2 := by
  have hs := safe_handle_write_ready e1 e2 ok
    { f with refcount := f.refcount + 1 } h
  have hq := safe_deref
    (fd_handle_write_ready e1 e2 ok { f with refcount := f.refcount + 1 }).1
    hs.1
  exact ⟨hq.1, SafeActs_append _ _ hs.2 hq.2⟩

theorem safe_except_ready (e1 e2 : Nat) (ok : Bool) (f : FdLL) (h : FInv f) :
    FInv (fd_except_ready e1 e2 ok f).1 ∧
    SafeActs (fd_except_ready e1 e2 ok f).2 := by
  by_cases hst : f.state = FdState.InOpen
  · have heq : fd_except_ready e1 e2 ok f = fd_write_ready e1 e2 ok f := by
      simp [fd_except_ready, fd_write_ready, hst]
    rw [heq]
    exact safe_write_ready e1 e2 ok f h
  · cases hex : f.ops.except_ready <;>
      simp [fd_except_ready, hst, hex, FInv, SafeActs, h.1, h.2.1, h.2.2]

theorem safe_finish_cleared (f : FdLL) (h : FInv f) :
    FInv (fd_finish_cleared f).1 ∧ SafeActs (fd_finish_cleared f).2 := by
  obtain ⟨hw, hr, hd⟩ := h
  cases hod : f.open_done <;> cases hdp : f.deferred_op_pending <;>
    cases hcd : f.close_done <;>
    simp [fd_finish_cleared, fd_finish_close, FInv, SafeActs, hod, hdp, hcd,
          hw, hr, hd]

theorem safe_cleared (inProg : Bool) (f : FdLL) (h : FInv f) :
    FInv (fd_cleared inProg f).1 ∧ SafeActs (fd_cleared inProg f).2 := by
  have hs := safe_finish_cleared f h
  cases hcc : f.ops.check_close <;> cases inProg <;>
    simp [fd_cleared, fd_close_timeout, hcc] <;>
    first
      | exact hs
      | exact ⟨h, by simp [SafeActs]⟩

theorem safe_close_timeout (inProg : Bool) (f : FdLL) (h : FInv f) :
    FInv (fd_close_timeout inProg f).1 ∧
    SafeActs (fd_close_timeout inProg f).2 := by
  have hs := safe_finish_cleared f h
  cases hcc : f.ops.check_close <;> cases inProg <;>
    simp [fd_close_timeout, hcc] <;>
    first
      | exact hs
      | exact ⟨h, by simp [SafeActs]⟩

theorem safe_disable (f : FdLL) (h : FInv f) :
    FInv (fd_disable f).1 ∧ SafeActs (fd_disable f).2 := by
  simp [fd_disable, FInv, SafeActs, h.1, h.2.1, h.2.2]

theorem safe_deferred_op (cb : Cb) (fO fI k : Nat) (f : FdLL) (h : FInv f)
    (f2 : FdLL) (acts : List Act)
    (hres : fd_deferred_op cb fO fI k f = (some f2, acts)) :
    FInv f2 ∧ SafeActs acts := by
  obtain ⟨hw, hr, hd⟩ := h
  rcases fO with _ | m
  · cases hdc : f.deferred_close <;> cases hcd : f.close_done <;>
      simp [fd_deferred_op, deferredReadLoop, fd_finish_close, hdc, hcd]
        at hres
  · cases hdc : f.deferred_close with
    | false =>
      by_cases hst : f.state = FdState.Open <;>
        by_cases hrc : f.refcount = 1 <;>
        simp [fd_deferred_op, deferredReadLoop, fd_finish_close, fd_deref,
              hdc, hd, hst, hrc] at hres <;>
        obtain ⟨h1, h2⟩ := hres <;>
        subst h1 <;> subst h2 <;>
        simp [FInv, SafeActs, hw, hr, hd]
    | true =>
      cases hcd : f.close_done <;>
        by_cases hst : f.state = FdState.Open <;>
        by_cases hrc : f.refcount = 1 <;>
        simp [fd_deferred_op, deferredReadLoop, fd_finish_close, fd_deref,
              hdc, hcd, hd, hst, hrc] at hres <;>
        obtain ⟨h1, h2⟩ := hres <;>
        subst h1 <;> subst h2 <;>
        simp [FInv, SafeActs, hw, hr, hd]

/-- The write-only invariant holds in every reachable world. -/
theorem reach_write_only_inv (fp : Bool) (size : Nat) (ops : FdOps) :
    ∀ w, Reach fp size true ops w →
      FInv w.f ∧ w.armedRead = false ∧ w.didRead = false := by
  intro w h
  induction h with
  | init =>
    refine ⟨⟨?_, ?_, ?_⟩, rfl, rfl⟩ <;> cases fp <;> rfl
  | setRead w2 b hrch ih =>
    rw [safe_set_read b w2.f ih.1.1]
    exact ih
  | setWrite w2 b hrch ih =>
    exact wstep_preserves _ _ (safe_set_write b w2.f ih.1).1
      (safe_set_write b w2.f ih.1).2 ih.2.1 ih.2.2
  | close w2 hrch ih =>
    exact wstep_preserves _ _ (safe_close w2.f ih.1).1
      (safe_close w2.f ih.1).2 ih.2.1 ih.2.2
  | openCall w2 subErr ok hrch ih =>
    exact wstep_preserves _ _ (safe_open subErr ok w2.f ih.1).1
      (safe_open subErr ok w2.f ih.1).2 ih.2.1 ih.2.2
  | writeReady w2 e1 e2 ok harm hrch ih =>
    exact wstep_preserves _ _ (safe_write_ready e1 e2 ok w2.f ih.1).1
      (safe_write_ready e1 e2 ok w2.f ih.1).2 ih.2.1 ih.2.2
  | exceptReady w2 e1 e2 ok harm hrch ih =>
    exact wstep_preserves _ _ (safe_except_ready e1 e2 ok w2.f ih.1).1
      (safe_except_ready e1 e2 ok w2.f ih.1).2 ih.2.1 ih.2.2
  | readReady w2 cb fuel k rerr bytes f2 acts harm hres hrch ih =>
    exact absurd harm (by simp [ih.2.1])
  | cleared w2 inProg hst hrch ih =>
    exact wstep_preserves _ _ (safe_cleared inProg w2.f ih.1).1
      (safe_cleared inProg w2.f ih.1).2 ih.2.1 ih.2.2
  | closeTimer w2 inProg hst hrch ih =>
    exact wstep_preserves _ _ (safe_close_timeout inProg w2.f ih.1).1
      (safe_close_timeout inProg w2.f ih.1).2 ih.2.1 ih.2.2
  | deferredOp w2 cb fuelO fuelI k f2 acts hp hres hrch ih =>
    exact wstep_preserves _ _
      (safe_deferred_op cb fuelO fuelI k w2.f ih.1 f2 acts hres).1
      (safe_deferred_op cb fuelO fuelI k w2.f ih.1 f2 acts hres).2
      ih.2.1 ih.2.2
  | disable w2 hrch ih =>
    exact wstep_preserves _ _ (safe_disable w2.f ih.1).1
      (safe_disable w2.f ih.1).2 ih.2.1 ih.2.2

/-- Amended C6: for an FD lower layer created with the write_only flag
set (the code's guard for a write-only layer), across every modelled
sequence of operations - including set_read_callback_enable(true) - the
OS read-ready handler is never armed and no OS read is ever performed. -/
theorem C6_write_only_never_arms_read (fp : Bool) (size : Nat) (ops : FdOps)
    (w : World) (h : Reach fp size true ops w) :
    w.armedRead = false ∧ w.didRead = false ∧ w.f.read_enabled = false := by
  have hi := reach_write_only_inv fp size ops w h
  exact ⟨hi.2.1, hi.2.2, hi.1.2.1⟩

/-- Witness for the amended C6: a concrete reachable world - allocation
followed by set_read_callback_enable(true) - has read-ready unarmed, no
read done, and read_enabled still false. -/
theorem C6_write_only_never_arms_read_witness :
    (wstep (initWorld true 0 true opsNone)
        (fd_set_read_callback_enable true
          (initWorld true 0 true opsNone).f)).armedRead = false ∧
    (wstep (initWorld true 0 true opsNone)
        (fd_set_read_callback_enable true
          (initWorld true 0 true opsNone).f)).didRead = false :=
  ⟨(C6_write_only_never_arms_read true 0 opsNone _
      (Reach.setRead _ true Reach.init)).1,
   (C6_write_only_never_arms_read true 0 opsNone _
      (Reach.setRead _ true Reach.init)).2.1⟩

end GensioModel
